import Mathlib

/-!
# Verification of the upload route and token-verification helper

Shallow embedding of `src/server/routes/upload.ts`: the `handleUpload`
request handler and the `verifyFirebaseToken` helper, together with
theorems settling the specification claims about them.

The storage collaborator (`uploadMediaFile`, `uploadPostMetadataWithThumbnail`,
`getServersList`, `updateServersList`) is modelled by an oracle giving each
call an outcome; the handler returns, alongside the HTTP response, the list
of storage calls it issued, in order.

JavaScript string operations are embedded on the character sequence
(`String.data`), matching how JS strings are sequences of code units:
`jsSplitComma`, `jsTrim`, `jsToLower`, `jsStartsWith`, `jsEndsWith`,
`jsIncludes`, `jsReplaceEscapedNewlines`, the default-`sort` order
`jsStrLe`, and `Set` deduplication `jsSetDedup`.
-/

namespace UploadSpec

/-- JS truthiness of a possibly-absent string (`undefined` and `""` are falsy). -/
def jsTruthy : Option String → Bool
  | none => false
  | some s => s != ""

/-- JS `a || b` for strings: `b` when `a` is falsy (empty). -/
def jsOr (a b : String) : String :=
  if a == "" then b else a

/-- JS `String.prototype.startsWith`. -/
def jsStartsWith (s pre : String) : Bool :=
  pre.data.isPrefixOf s.data

/-- JS `String.prototype.endsWith`. -/
def jsEndsWith (s post : String) : Bool :=
  post.data.isSuffixOf s.data

/-- Accumulator for `jsSplitComma`: splits the character list on commas. -/
def splitCommaAux (acc : List Char) : List Char → List String
  | [] => [⟨acc.reverse⟩]
  | c :: cs => if c == ',' then ⟨acc.reverse⟩ :: splitCommaAux [] cs else splitCommaAux (c :: acc) cs

/-- JS `s.split(",")` (splitting the empty string gives `[""]`). -/
def jsSplitComma (s : String) : List String :=
  splitCommaAux [] s.data

/-- JS `String.prototype.trim`: strip leading and trailing whitespace. -/
def jsTrim (s : String) : String :=
  ⟨(((s.data.dropWhile Char.isWhitespace).reverse.dropWhile Char.isWhitespace)).reverse⟩

/-- JS `String.prototype.toLowerCase`. -/
def jsToLower (s : String) : String :=
  ⟨s.data.map Char.toLower⟩

/-- Does `pat` occur as a contiguous subsequence of `s`? -/
def containsSeq (pat : List Char) : List Char → Bool
  | [] => pat.isPrefixOf []
  | c :: cs => pat.isPrefixOf (c :: cs) || containsSeq pat cs

/-- JS `String.prototype.includes`. -/
def jsIncludes (s pat : String) : Bool :=
  containsSeq pat.data s.data

/-- Replace every two-character `\n` escape by a newline:
`privateKey.replace(/\\n/g, "\n")`. -/
def replaceEscapedNewlinesAux : List Char → List Char
  | [] => []
  | '\\' :: 'n' :: cs => '\n' :: replaceEscapedNewlinesAux cs
  | c :: cs => c :: replaceEscapedNewlinesAux cs

/-- String-level wrapper for `replaceEscapedNewlinesAux`. -/
def jsReplaceEscapedNewlines (s : String) : String :=
  ⟨replaceEscapedNewlinesAux s.data⟩

/-- Lexicographic comparison of character sequences by code point, the order
used by the default JS `Array.prototype.sort` on strings. -/
def charListLt : List Char → List Char → Bool
  | _, [] => false
  | [], _ :: _ => true
  | a :: as, b :: bs =>
    if a.toNat < b.toNat then true
    else if b.toNat < a.toNat then false
    else charListLt as bs

/-- The non-strict string order induced by `charListLt`. -/
def jsStrLe (a b : String) : Prop :=
  charListLt b.data a.data = false

instance : DecidableRel jsStrLe := fun a b =>
  inferInstanceAs (Decidable (charListLt b.data a.data = false))

/-- First-occurrence deduplication, `Array.from(new Set(l))`; `seen` holds the
elements already emitted. -/
def jsSetDedupAux (seen : List String) : List String → List String
  | [] => []
  | x :: xs => if seen.contains x then jsSetDedupAux seen xs else x :: jsSetDedupAux (seen ++ [x]) xs

/-- `Array.from(new Set(l))`: distinct elements, first occurrences, in order. -/
def jsSetDedup (l : List String) : List String :=
  jsSetDedupAux [] l

/-- One multipart file as delivered by the middleware; `originalname` and
`mimetype` use `""` for an absent value (JS falsy), `buffer` is an opaque
handle for the file bytes. -/
structure UploadFile where
  originalname : String
  buffer : Nat
  mimetype : String
deriving DecidableEq

/-- The value of a `req.files` field group: absent, some non-array object, or
an array of files. -/
inductive FileGroup
  | missing
  | notArray
  | arr (files : List UploadFile)
deriving DecidableEq

/-- JS truthiness of a file group: `undefined` is falsy; objects and arrays,
even empty arrays, are truthy. -/
def FileGroup.jsPresent : FileGroup → Bool
  | .missing => false
  | _ => true

/-- The `nsfw` body field: absent, a string, or a boolean. -/
inductive NsfwField
  | absent
  | str (s : String)
  | flag (b : Bool)
deriving DecidableEq

/-- The coercion `nsfw === "true" || nsfw === true`. -/
def coerceNsfw : NsfwField → Bool
  | .str s => s == "true"
  | .flag b => b
  | .absent => false

/-- The request body fields and file groups read by `handleUpload`. -/
structure UploadReq where
  title : Option String
  description : Option String
  country : Option String
  city : Option String
  server : Option String
  nsfw : NsfwField
  media : FileGroup
  thumbnail : FileGroup
deriving DecidableEq

/-- The `postMetadata` object persisted by the handler (upload.ts lines 107 to 117). -/
structure PostMetadata where
  id : String
  title : String
  description : String
  country : String
  city : String
  server : String
  nsfw : Bool
  mediaFiles : List String
  createdAt : String
deriving DecidableEq

/-- One storage call, in the order issued: `uploadMediaFile`,
`uploadPostMetadataWithThumbnail`, `getServersList`, `updateServersList`. -/
inductive StorageEvent
  | uploadMedia (postId name : String) (buffer : Nat) (contentType : String)
  | uploadMetadata (postId : String) (metadata : PostMetadata) (thumbnailUrl : String)
  | getServers
  | updateServers (servers : List String)
deriving DecidableEq

/-- Registry calls: `getServersList` and `updateServersList`. -/
def StorageEvent.isRegistry : StorageEvent → Bool
  | .getServers => true
  | .updateServers _ => true
  | _ => false

/-- Storage calls that write (all but the registry read `getServersList`). -/
def StorageEvent.isWrite : StorageEvent → Bool
  | .getServers => false
  | _ => true

/-- The stored name of a media-file upload call, if it is one. -/
def StorageEvent.mediaName? : StorageEvent → Option String
  | .uploadMedia _ name _ _ => some name
  | _ => none

/-- Outcomes of the storage collaborator calls: each call either returns
(`ok`) or throws (`error` carries the exception message). `mediaResult` gives
the outcome of the `uploadMediaFile` call for the media file at each index. -/
structure Storage where
  thumbResult : Except String String
  mediaResult : Nat → Except String String
  metadataResult : Except String Unit
  serversResult : Except String (List String)
  updateResult : Except String Unit

/-- The HTTP response, keeping the varying fields (the success body also
carries constant `success` and `message` fields). -/
inductive UploadResponse
  | success (postId : String) (mediaCount : Nat)
  | badRequest (error : String)
  | serverError (error : String) (details : Option String)
deriving DecidableEq

/-- The validation cascade of `handleUpload` (upload.ts lines 28 to 67), first
failure wins: missing required fields, then media-array format, then empty
media, then thumbnail. On success it yields the media array and
`files.thumbnail[0]`. -/
def validate (req : UploadReq) : Except String (List UploadFile × UploadFile) :=
  if !(jsTruthy req.title && jsTruthy req.description &&
       req.media.jsPresent && req.thumbnail.jsPresent) then
    .error "Missing required fields"
  else
    match req.media with
    | .arr ms =>
      if ms.length == 0 then
        .error "At least one media file is required"
      else
        match req.thumbnail with
        | .arr (t :: _) => .ok (ms, t)
        | _ => .error "Thumbnail is required"
    | _ => .error "Media files format is invalid"

/-- The stored name generated for the media file `f` at 0-based index `i`
(upload.ts lines 88 to 89): `Date.now()`, the index and the original name
joined with `-`; when no original name is given the name part falls back to
`media-` followed by the 1-based position `i + 1`. -/
def mediaFileNameAt (now i : Nat) (f : UploadFile) : String :=
  toString now ++ "-" ++ toString i ++ "-" ++ jsOr f.originalname ("media-" ++ toString (i + 1))

/-- The media upload loop (upload.ts lines 85 to 103) starting at index `i`:
returns the storage calls issued and either the generated names in order or
the message of the first failure, which aborts the loop. -/
def uploadMediaLoop (st : Storage) (postId : String) (now : Nat) :
    Nat → List UploadFile → List StorageEvent × Except String (List String)
  | _, [] => ([], .ok [])
  | i, f :: fs =>
    let name := mediaFileNameAt now i f
    let ev := StorageEvent.uploadMedia postId name f.buffer (jsOr f.mimetype "application/octet-stream")
    match st.mediaResult i with
    | .error e => ([ev], .error e)
    | .ok _ =>
      let (evs, r) := uploadMediaLoop st postId now (i + 1) fs
      (ev :: evs,
       match r with
       | .error e => .error e
       | .ok names => .ok (name :: names))

/-- The metadata record assembled at upload.ts lines 107 to 117. -/
def mkPostMetadata (req : UploadReq) (mediaFileNames : List String) (now : Nat)
    (nowIso : String) : PostMetadata :=
  { id := toString now
    title := req.title.getD ""
    description := req.description.getD ""
    country := req.country.getD ""
    city := req.city.getD ""
    server := req.server.getD ""
    nsfw := coerceNsfw req.nsfw
    mediaFiles := mediaFileNames
    createdAt := nowIso }

/-- The server-registry update (upload.ts lines 121 to 130): runs only for a
truthy, non-blank `server`; the read list plus the raw submitted name is
deduplicated and sorted; a failing read or write is caught and only logged. -/
def registryStep (req : UploadReq) (st : Storage) : List StorageEvent :=
  if jsTruthy req.server && (jsTrim (req.server.getD "") != "") then
    match st.serversResult with
    | .error _ => [.getServers]
    | .ok servers =>
      let updatedServers :=
        List.insertionSort jsStrLe (jsSetDedup (servers ++ [req.server.getD ""]))
      [.getServers, .updateServers updatedServers]
  else []

/-- The HTTP 500 body built in the storage catch (upload.ts lines 151 to 155). -/
def r2ErrorResponse (e : String) (development : Bool) : UploadResponse :=
  .serverError ("Upload to R2 failed: " ++ e) (if development then some e else none)

/-- The upload sequence after validation (upload.ts lines 67 to 141):
thumbnail, media files, metadata, then the swallowed registry step; any
storage failure lands in the catch of lines 142 to 156. -/
def processUpload (req : UploadReq) (ms : List UploadFile) (thumbFile : UploadFile)
    (st : Storage) (now : Nat) (nowIso : String) (development : Bool) :
    UploadResponse × List StorageEvent :=
  let postId := toString now
  let thumbEv := StorageEvent.uploadMedia postId ("thumbnail-" ++ toString now)
    thumbFile.buffer (jsOr thumbFile.mimetype "image/jpeg")
  match st.thumbResult with
  | .error e => (r2ErrorResponse e development, [thumbEv])
  | .ok thumbnailUrl =>
    match uploadMediaLoop st postId now 0 ms with
    | (mediaEvs, .error e) => (r2ErrorResponse e development, thumbEv :: mediaEvs)
    | (mediaEvs, .ok mediaFileNames) =>
      let metaEv := StorageEvent.uploadMetadata postId
        (mkPostMetadata req mediaFileNames now nowIso) thumbnailUrl
      match st.metadataResult with
      | .error e => (r2ErrorResponse e development, thumbEv :: mediaEvs ++ [metaEv])
      | .ok _ =>
        (.success postId mediaFileNames.length,
         thumbEv :: mediaEvs ++ [metaEv] ++ registryStep req st)

/-- The request handler `handleUpload` (upload.ts lines 19 to 169): `now`
models `Date.now()`, `nowIso` the ISO timestamp, `development` the
`NODE_ENV === "development"` flag. -/
def handleUpload (req : UploadReq) (st : Storage) (now : Nat) (nowIso : String)
    (development : Bool) : UploadResponse × List StorageEvent :=
  match validate req with
  | .error e => (.badRequest e, [])
  | .ok (ms, t) => processUpload req ms t st now nowIso development

/-- Environment and process state read by the Firebase helpers;
`certInitFails` models `admin.initializeApp` throwing. -/
structure FirebaseConfig where
  appsInitialized : Bool
  projectId : Option String
  privateKey : Option String
  clientEmail : Option String
  certInitFails : Bool
  authorizedEmails : Option String

/-- The helper `initializeFirebaseAdmin` (upload.ts lines 175 to 226): `true`
when an app is available, `false` when it returned `null`. -/
def initializeFirebaseAdmin (cfg : FirebaseConfig) : Bool :=
  if cfg.appsInitialized then true
  else if !(jsTruthy cfg.projectId && jsTruthy cfg.privateKey && jsTruthy cfg.clientEmail) then
    false
  else
    let privateKey := jsReplaceEscapedNewlines (cfg.privateKey.getD "")
    if !(jsIncludes privateKey "BEGIN PRIVATE KEY" && jsIncludes privateKey "END PRIVATE KEY") then
      false
    else !cfg.certInitFails

/-- A decoded ID token: `uid` plus optional `email`. -/
structure DecodedToken where
  uid : String
  email : Option String
deriving DecidableEq

/-- The identity returned by `verifyFirebaseToken`. -/
structure VerifiedIdentity where
  uid : String
  email : Option String
  isAuthorized : Bool
deriving DecidableEq

/-- Allow-list parsing (upload.ts lines 252 to 255): split on commas, trim
and lower-case each entry, drop empties. -/
def parseEmailList (authorizedEmails : String) : List String :=
  ((jsSplitComma authorizedEmails).map fun e => jsToLower (jsTrim e)).filter fun e => 0 < e.length

/-- The authorization decision (upload.ts lines 257 to 267). -/
def computeIsAuthorized (authorizedEmails : String) (email : Option String) : Bool :=
  let emailList := parseEmailList authorizedEmails
  if 0 < emailList.length && jsTruthy email then
    let lowerEmail := jsToLower (email.getD "")
    emailList.any fun authorizedEmail =>
      if jsStartsWith authorizedEmail "@" then jsEndsWith lowerEmail authorizedEmail
      else lowerEmail == authorizedEmail
  else false

/-- The helper `verifyFirebaseToken` (upload.ts lines 231 to 285).
`tokenResult` is the outcome of `admin.auth().verifyIdToken(idToken)`; the
body runs inside a try whose catch rethrows every failure, including the
initialization failure, as the uniform token error. -/
def verifyFirebaseToken (cfg : FirebaseConfig) (tokenResult : Except String DecodedToken) :
    Except String VerifiedIdentity :=
  let inner : Except String VerifiedIdentity :=
    if initializeFirebaseAdmin cfg then
      match tokenResult with
      | .error e => .error e
      | .ok decodedToken =>
        .ok { uid := decodedToken.uid
              email := decodedToken.email
              isAuthorized :=
                computeIsAuthorized (cfg.authorizedEmails.getD "") decodedToken.email }
    else .error "Firebase Admin SDK not initialized"
  match inner with
  | .ok v => .ok v
  | .error _ => .error "Invalid or expired token"

/-! Concrete fixtures used by the closed witness and counterexample theorems. -/

/-- A media file with a name and declared content type. -/
def fileA : UploadFile :=
  { originalname := "clip.mp4", buffer := 7, mimetype := "video/mp4" }

/-- A media file with no original name and no declared content type. -/
def fileNoName : UploadFile :=
  { originalname := "", buffer := 7, mimetype := "" }

/-- A thumbnail file. -/
def thumbA : UploadFile :=
  { originalname := "cover.png", buffer := 3, mimetype := "image/png" }

/-- A minimal valid request without a server name. -/
def reqA : UploadReq :=
  { title := some "t", description := some "d", country := none, city := none,
    server := none, nsfw := .absent, media := .arr [fileA], thumbnail := .arr [thumbA] }

/-- The valid request with server name `s`. -/
def reqServer : UploadReq := { reqA with server := some "s" }

/-- The valid request whose media file has no original name. -/
def reqNoName : UploadReq := { reqA with media := .arr [fileNoName] }

/-- The request with the title absent. -/
def reqMissingTitle : UploadReq := { reqA with title := none }

/-- The request with the title present but equal to the empty string. -/
def reqEmptyTitle : UploadReq := { reqA with title := some "" }

/-- The valid request with server name `alpha`. -/
def reqAlpha : UploadReq := { reqA with server := some "alpha" }

/-- The valid request with the whitespace-padded server name. -/
def reqPadded : UploadReq := { reqA with server := some " b" }

/-- The all-success storage oracle over an empty registry. -/
def stOk : Storage :=
  { thumbResult := .ok "u", mediaResult := fun _ => .ok "m", metadataResult := .ok (),
    serversResult := .ok [], updateResult := .ok () }

/-- All-success storage whose registry already holds `b`. -/
def stB : Storage := { stOk with serversResult := .ok ["b"] }

/-- All-success storage whose registry already holds `beta`. -/
def stBeta : Storage := { stOk with serversResult := .ok ["beta"] }

/-- All-success storage whose registry read returns an unsorted list with a
duplicate. -/
def stDup : Storage := { stOk with serversResult := .ok ["b", "a", "b"] }

/-- Storage where both registry calls fail and everything else succeeds. -/
def stRegFail : Storage :=
  { stOk with serversResult := .error "registry down", updateResult := .error "registry down" }

/-- Storage where the thumbnail upload throws with message `boom`. -/
def stThumbFail : Storage := { stOk with thumbResult := .error "boom" }

/-- A Firebase configuration with the private key absent. -/
def cfgNoKey : FirebaseConfig :=
  { appsInitialized := false, projectId := some "p", privateKey := none,
    clientEmail := some "c", certInitFails := false, authorizedEmails := none }

/-- A fully configured Firebase environment (escaped-newline private key with
both markers). -/
def cfgReady : FirebaseConfig :=
  { cfgNoKey with privateKey := some "BEGIN PRIVATE KEY\\nEND PRIVATE KEY" }

@[simp] theorem charListLt_nil_right (as : List Char) : charListLt as [] = false := by
  cases as <;> rfl

@[simp] theorem charListLt_nil_cons (b : Char) (bs : List Char) :
    charListLt [] (b :: bs) = true := rfl

theorem charListLt_cons_cons (a b : Char) (as bs : List Char) :
    charListLt (a :: as) (b :: bs) =
      if a.toNat < b.toNat then true
      else if b.toNat < a.toNat then false
      else charListLt as bs := rfl

theorem charListLt_irrefl : ∀ as, charListLt as as = false
  | [] => rfl
  | a :: as => by
    rw [charListLt_cons_cons]
    simp [charListLt_irrefl as]

theorem charListLt_asymm : ∀ as bs, charListLt as bs = true → charListLt bs as = false := by
  intro as
  induction as with
  | nil =>
    intro bs h
    cases bs with
    | nil => simp at h
    | cons b bs => simp
  | cons a as ih =>
    intro bs h
    cases bs with
    | nil => simp at h
    | cons b bs =>
      rw [charListLt_cons_cons] at h ⊢
      by_cases h1 : a.toNat < b.toNat
      · have h2 : ¬ b.toNat < a.toNat := Nat.lt_asymm h1
        simp [h1, h2]
      · by_cases h2 : b.toNat < a.toNat
        · simp [h1, h2] at h
        · simp only [if_neg h1, if_neg h2] at h ⊢
          exact ih bs h

theorem charListLt_trans : ∀ as bs cs, charListLt as bs = true → charListLt bs cs = true →
    charListLt as cs = true := by
  intro as
  induction as with
  | nil =>
    intro bs cs h1 h2
    cases bs with
    | nil => simp at h1
    | cons b bs =>
      cases cs with
      | nil => simp at h2
      | cons c cs => simp
  | cons a as ih =>
    intro bs cs h1 h2
    cases bs with
    | nil => simp at h1
    | cons b bs =>
      cases cs with
      | nil => simp at h2
      | cons c cs =>
        rw [charListLt_cons_cons] at h1 h2 ⊢
        by_cases hab : a.toNat < b.toNat
        · by_cases hbc : b.toNat < c.toNat
          · simp [Nat.lt_trans hab hbc]
          · by_cases hcb : c.toNat < b.toNat
            · simp [hbc, hcb] at h2
            · have hbceq : b.toNat = c.toNat :=
                Nat.le_antisymm (Nat.not_lt.mp hcb) (Nat.not_lt.mp hbc)
              simp [hbceq ▸ hab]
        · by_cases hba : b.toNat < a.toNat
          · simp [hab, hba] at h1
          · have hab' : a.toNat = b.toNat :=
              Nat.le_antisymm (Nat.not_lt.mp hba) (Nat.not_lt.mp hab)
            simp only [if_neg hab, if_neg hba] at h1
            by_cases hbc : b.toNat < c.toNat
            · simp [hab' ▸ hbc]
            · by_cases hcb : c.toNat < b.toNat
              · simp [hbc, hcb] at h2
              · simp only [if_neg hbc, if_neg hcb] at h2
                have hac : ¬ a.toNat < c.toNat := hab' ▸ hbc
                have hca : ¬ c.toNat < a.toNat := hab' ▸ hcb
                simp only [if_neg hac, if_neg hca]
                exact ih bs cs h1 h2

theorem charListLt_eq_of_not_lt : ∀ as bs, charListLt as bs = false → charListLt bs as = false →
    as = bs := by
  intro as
  induction as with
  | nil =>
    intro bs h1 _
    cases bs with
    | nil => rfl
    | cons b bs => simp at h1
  | cons a as ih =>
    intro bs h1 h2
    cases bs with
    | nil => simp at h2
    | cons b bs =>
      rw [charListLt_cons_cons] at h1 h2
      by_cases hab : a.toNat < b.toNat
      · simp [hab] at h1
      · by_cases hba : b.toNat < a.toNat
        · simp [hba, hab] at h2
        · simp only [if_neg hab, if_neg hba] at h1 h2
          have hval : a = b := Char.ext (UInt32.toNat.inj
            (Nat.le_antisymm (Nat.not_lt.mp hba) (Nat.not_lt.mp hab)))
          rw [hval, ih bs h1 h2]



theorem mem_jsSetDedupAux : ∀ (l seen : List String) (a : String),
    a ∈ jsSetDedupAux seen l ↔ a ∈ l ∧ a ∉ seen := by
  intro l
  induction l with
  | nil => intro seen a; simp [jsSetDedupAux]
  | cons x xs ih =>
    intro seen a
    simp only [jsSetDedupAux]
    by_cases hx : seen.contains x
    · rw [if_pos hx, ih]
      have hxs : x ∈ seen := List.elem_iff.mp hx
      simp only [List.mem_cons]
      by_cases hax : a = x
      · subst hax; tauto
      · tauto
    · rw [if_neg hx, List.mem_cons, ih]
      have hxs : x ∉ seen := fun h => hx (List.elem_iff.mpr h)
      simp only [List.mem_append, List.mem_singleton, List.mem_cons]
      by_cases hax : a = x
      · subst hax; tauto
      · tauto

theorem mem_jsSetDedup (l : List String) (a : String) : a ∈ jsSetDedup l ↔ a ∈ l := by
  rw [jsSetDedup, mem_jsSetDedupAux]
  simp

theorem nodup_jsSetDedupAux : ∀ (l seen : List String), (jsSetDedupAux seen l).Nodup := by
  intro l
  induction l with
  | nil => intro seen; simp [jsSetDedupAux]
  | cons x xs ih =>
    intro seen
    simp only [jsSetDedupAux]
    by_cases hx : seen.contains x
    · rw [if_pos hx]; exact ih seen
    · rw [if_neg hx]
      refine List.nodup_cons.mpr ⟨fun hmem => ?_, ih _⟩
      have := (mem_jsSetDedupAux xs (seen ++ [x]) x).mp hmem
      exact this.2 (List.mem_append.mpr (Or.inr (List.mem_singleton.mpr rfl)))

theorem nodup_jsSetDedup (l : List String) : (jsSetDedup l).Nodup :=
  nodup_jsSetDedupAux l []

theorem jsStrLe_total : ∀ a b : String, jsStrLe a b ∨ jsStrLe b a := by
  intro a b
  unfold jsStrLe
  by_cases h : charListLt b.data a.data = true
  · right
    exact charListLt_asymm _ _ h
  · left
    exact Bool.not_eq_true _ ▸ h

theorem jsStrLe_trans : ∀ a b c : String, jsStrLe a b → jsStrLe b c → jsStrLe a c := by
  intro a b c hab hbc
  unfold jsStrLe at hab hbc ⊢
  by_cases hca : charListLt c.data a.data = true
  · by_cases hlt : charListLt a.data b.data = true
    · have h := charListLt_trans _ _ _ hca hlt
      rw [h] at hbc
      exact absurd hbc (by simp)
    · have hab' : charListLt a.data b.data = false := Bool.not_eq_true _ ▸ hlt
      have heq : a.data = b.data := charListLt_eq_of_not_lt _ _ hab' hab
      rw [heq] at hca
      rw [hca] at hbc
      exact absurd hbc (by simp)
  · exact Bool.not_eq_true _ ▸ hca

theorem sorted_insertionSort_jsStrLe (l : List String) :
    List.Sorted jsStrLe (List.insertionSort jsStrLe l) :=
  @List.sorted_insertionSort String jsStrLe _ ⟨jsStrLe_total⟩ ⟨jsStrLe_trans⟩ l

theorem jsEndsWith_self (s : String) : jsEndsWith s s = true := by
  simp [jsEndsWith]

@[simp] theorem FileGroup.jsPresent_missing : FileGroup.missing.jsPresent = false := rfl

@[simp] theorem FileGroup.jsPresent_notArray : FileGroup.notArray.jsPresent = true := rfl

@[simp] theorem FileGroup.jsPresent_arr (l : List UploadFile) :
    (FileGroup.arr l).jsPresent = true := rfl

theorem uploadMediaLoop_ok (st : Storage) (postId : String) (now : Nat)
    (h : ∀ j, (st.mediaResult j).isOk = true) :
    ∀ (fs : List UploadFile) (i : Nat),
      uploadMediaLoop st postId now i fs =
        ((fs.enumFrom i).map fun p =>
            StorageEvent.uploadMedia postId (mediaFileNameAt now p.1 p.2) p.2.buffer
              (jsOr p.2.mimetype "application/octet-stream"),
         .ok ((fs.enumFrom i).map fun p => mediaFileNameAt now p.1 p.2)) := by
  intro fs
  induction fs with
  | nil => intro i; rfl
  | cons f fs ih =>
    intro i
    have hi := h i
    cases hr : st.mediaResult i with
    | error e => rw [hr] at hi; simp [Except.isOk, Except.toBool] at hi
    | ok u =>
      simp only [uploadMediaLoop, hr, ih (i + 1), List.enumFrom_cons, List.map_cons]

theorem uploadMediaLoop_events_not_registry (st : Storage) (postId : String) (now : Nat) :
    ∀ (fs : List UploadFile) (i : Nat) (ev : StorageEvent),
      ev ∈ (uploadMediaLoop st postId now i fs).1 → ev.isRegistry = false := by
  intro fs
  induction fs with
  | nil => intro i ev h; simp [uploadMediaLoop] at h
  | cons f fs ih =>
    intro i ev h
    simp only [uploadMediaLoop] at h
    cases hr : st.mediaResult i with
    | error e =>
      rw [hr] at h
      simp only [List.mem_singleton] at h
      subst h; rfl
    | ok u =>
      rw [hr] at h
      simp only at h
      rcases List.mem_cons.mp h with rfl | h2
      · rfl
      · exact ih (i + 1) ev h2

theorem processUpload_ok (req : UploadReq) (ms : List UploadFile) (t : UploadFile)
    (st : Storage) (now : Nat) (nowIso : String) (dev : Bool) (url : String)
    (hthumb : st.thumbResult = .ok url)
    (hmedia : ∀ j, (st.mediaResult j).isOk = true)
    (hmeta : st.metadataResult = .ok ()) :
    processUpload req ms t st now nowIso dev =
      (.success (toString now) ms.length,
       StorageEvent.uploadMedia (toString now) ("thumbnail-" ++ toString now) t.buffer
           (jsOr t.mimetype "image/jpeg")
         :: (ms.enum.map fun p =>
              StorageEvent.uploadMedia (toString now) (mediaFileNameAt now p.1 p.2) p.2.buffer
                (jsOr p.2.mimetype "application/octet-stream"))
         ++ [StorageEvent.uploadMetadata (toString now)
              (mkPostMetadata req (ms.enum.map fun p => mediaFileNameAt now p.1 p.2) now nowIso)
              url]
         ++ registryStep req st) := by
  simp only [processUpload, hthumb, uploadMediaLoop_ok st (toString now) now hmedia ms 0, hmeta,
    List.enum]
  simp [List.enumFrom_length]

theorem registryStep_filter_not_registry (req : UploadReq) (st : Storage) :
    (registryStep req st).filter (fun e => !e.isRegistry) = [] := by
  unfold registryStep
  split
  · cases st.serversResult <;> simp [StorageEvent.isRegistry]
  · rfl

theorem mem_registryStep_update (req : UploadReq) (st : Storage) (W : List String)
    (h : StorageEvent.updateServers W ∈ registryStep req st) :
    ∃ L, st.serversResult = .ok L ∧
      W = List.insertionSort jsStrLe (jsSetDedup (L ++ [req.server.getD ""])) := by
  unfold registryStep at h
  split at h
  · cases hsv : st.serversResult with
    | error e => rw [hsv] at h; simp at h
    | ok L =>
      rw [hsv] at h
      simp only [List.mem_cons, List.mem_singleton, List.not_mem_nil, or_false] at h
      rcases h with h | h
      · exact absurd h (by simp)
      · exact ⟨L, rfl, by injection h⟩
  · simp at h

theorem filter_not_registry_eq_self (l : List StorageEvent)
    (h : ∀ e ∈ l, e.isRegistry = false) : l.filter (fun e => !e.isRegistry) = l :=
  List.filter_eq_self.mpr fun a ha => by rw [h a ha]; rfl

theorem filter_registry_eq_nil (l : List StorageEvent)
    (h : ∀ e ∈ l, e.isRegistry = false) : l.filter (fun e => e.isRegistry) = [] :=
  List.filter_eq_nil_iff.mpr fun a ha => by rw [h a ha]; simp

theorem media_events_not_registry (pid : String) (now : Nat) (l : List (Nat × UploadFile)) :
    ∀ e ∈ l.map fun p => StorageEvent.uploadMedia pid (mediaFileNameAt now p.1 p.2) p.2.buffer
        (jsOr p.2.mimetype "application/octet-stream"), e.isRegistry = false := by
  intro e he
  obtain ⟨p, hp, rfl⟩ := List.mem_map.mp he
  rfl

theorem filterMap_mediaName_media (pid : String) (now : Nat) (l : List (Nat × UploadFile)) :
    ((l.map fun p => StorageEvent.uploadMedia pid (mediaFileNameAt now p.1 p.2) p.2.buffer
        (jsOr p.2.mimetype "application/octet-stream")).filterMap StorageEvent.mediaName?) =
      l.map fun p => mediaFileNameAt now p.1 p.2 := by
  induction l with
  | nil => rfl
  | cons x xs ih => simp [List.filterMap_cons, StorageEvent.mediaName?, ih]


theorem mem_trace_registry_or_not (req : UploadReq) (st : Storage) (now : Nat) (nowIso : String)
    (dev : Bool) (e : StorageEvent) (he : e ∈ (handleUpload req st now nowIso dev).2) :
    e.isRegistry = false ∨ e ∈ registryStep req st := by
  simp only [handleUpload] at he
  split at he
  · simp at he
  · rename_i ms t heq
    simp only [processUpload] at he
    split at he
    · simp only [List.mem_singleton] at he
      subst he; exact Or.inl rfl
    · rename_i url hthumb
      split at he
      · rename_i mediaEvs err hloop
        simp only [List.mem_cons] at he
        rcases he with rfl | h2
        · exact Or.inl rfl
        · refine Or.inl (uploadMediaLoop_events_not_registry st (toString now) now ms 0 e ?_)
          rw [hloop]; exact h2
      · rename_i mediaEvs names hloop
        split at he
        · rename_i err hmeta
          simp only [List.cons_append, List.append_assoc, List.mem_cons, List.mem_append,
            List.mem_singleton, List.not_mem_nil, or_false, false_or] at he
          rcases he with rfl | h2 | rfl
          · exact Or.inl rfl
          · refine Or.inl (uploadMediaLoop_events_not_registry st (toString now) now ms 0 e ?_)
            rw [hloop]; exact h2
          · exact Or.inl rfl
        · rename_i u hmeta
          simp only [List.cons_append, List.append_assoc, List.mem_cons, List.mem_append,
            List.mem_singleton, List.not_mem_nil, or_false, false_or] at he
          rcases he with rfl | h2 | rfl | h3
          · exact Or.inl rfl
          · refine Or.inl (uploadMediaLoop_events_not_registry st (toString now) now ms 0 e ?_)
            rw [hloop]; exact h2
          · exact Or.inl rfl
          · exact Or.inr h3

theorem registryStep_filterMap_mediaName (req : UploadReq) (st : Storage) :
    (registryStep req st).filterMap StorageEvent.mediaName? = [] := by
  unfold registryStep
  split
  · cases st.serversResult <;> simp [StorageEvent.mediaName?]
  · rfl

theorem handleUpload_of_validate_ok (req : UploadReq) (ms : List UploadFile) (t : UploadFile)
    (st : Storage) (now : Nat) (nowIso : String) (dev : Bool)
    (hval : validate req = .ok (ms, t)) :
    handleUpload req st now nowIso dev = processUpload req ms t st now nowIso dev := by
  simp [handleUpload, hval]

/-- C5: every request missing title, description, the media group or the
thumbnail group, and every request with an empty media or thumbnail list, gets
a 400 response with the corresponding validation error and no storage call is
issued; the checks run fail-fast in the order missing-fields, media-format,
empty-media, thumbnail, and the first failure determines the response. -/
theorem c5_validation_fail_fast (req : UploadReq) (st : Storage) (now : Nat) (nowIso : String) (dev : Bool) :
    ((jsTruthy req.title && jsTruthy req.description &&
        req.media.jsPresent && req.thumbnail.jsPresent) = false →
      handleUpload req st now nowIso dev = (.badRequest "Missing required fields", [])) ∧
    ((jsTruthy req.title && jsTruthy req.description &&
        req.media.jsPresent && req.thumbnail.jsPresent) = true →
      req.media = .notArray →
      handleUpload req st now nowIso dev = (.badRequest "Media files format is invalid", [])) ∧
    ((jsTruthy req.title && jsTruthy req.description &&
        req.media.jsPresent && req.thumbnail.jsPresent) = true →
      req.media = .arr [] →
      handleUpload req st now nowIso dev = (.badRequest "At least one media file is required", [])) ∧
    ((jsTruthy req.title && jsTruthy req.description &&
        req.media.jsPresent && req.thumbnail.jsPresent) = true →
      ∀ f fs, req.media = .arr (f :: fs) →
      (req.thumbnail = .notArray ∨ req.thumbnail = .arr []) →
      handleUpload req st now nowIso dev = (.badRequest "Thumbnail is required", [])) := by
  refine ⟨fun h => ?_, fun hX hm => ?_, fun hX hm => ?_, fun hX f fs hm ht => ?_⟩
  · simp [handleUpload, validate, h]
  · simp only [Bool.and_eq_true] at hX
    obtain ⟨⟨⟨h1, h2⟩, h3⟩, h4⟩ := hX
    simp [handleUpload, validate, h1, h2, h3, h4, hm]
  · simp only [Bool.and_eq_true] at hX
    obtain ⟨⟨⟨h1, h2⟩, h3⟩, h4⟩ := hX
    simp [handleUpload, validate, h1, h2, h3, h4, hm]
  · simp only [Bool.and_eq_true] at hX
    obtain ⟨⟨⟨h1, h2⟩, h3⟩, h4⟩ := hX
    rcases ht with ht | ht <;>
      simp [handleUpload, validate, h1, h2, h3, h4, hm, ht]

/-- C9: a title or description that is present but equal to the empty string
is treated like an absent field: the handler answers 400 with the
missing-required-fields error and issues no storage call. -/
theorem c9_empty_required_fields (req : UploadReq) (st : Storage) (now : Nat) (nowIso : String) (dev : Bool)
    (h : req.title = some "" ∨ req.description = some "") :
    handleUpload req st now nowIso dev = (.badRequest "Missing required fields", []) := by
  rcases h with h | h <;> simp [handleUpload, validate, h, jsTruthy]

/-- C2 (amended): when credential initialization has failed (private key
absent and no cached app), every verification call fails, but with the same
uniform invalid-or-expired-token error used for token failures; the
initialization cause is only logged, not surfaced. -/
theorem c2_init_failure_is_token_error (cfg : FirebaseConfig) (tokenResult : Except String DecodedToken)
    (h1 : cfg.appsInitialized = false) (h2 : cfg.privateKey = none) :
    verifyFirebaseToken cfg tokenResult = .error "Invalid or expired token" := by
  have hinit : initializeFirebaseAdmin cfg = false := by
    simp [initializeFirebaseAdmin, h1, h2, jsTruthy]
  simp [verifyFirebaseToken, hinit]

/-- C4: `isAuthorized` is true exactly when the parsed allow-list (split on
commas, entries trimmed and lower-cased, empties dropped) is non-empty, the
decoded email is present (non-empty), and either the lower-cased email equals
some entry or some entry starts with `@` and the lower-cased email ends with
that entry; an empty allow-list or a missing email always yields `false`. -/
theorem c4_allowlist_authorization (authorizedEmails : String) (email : Option String) :
    computeIsAuthorized authorizedEmails email = true ↔
      parseEmailList authorizedEmails ≠ [] ∧
      ∃ e, email = some e ∧ e ≠ "" ∧
        ∃ a ∈ parseEmailList authorizedEmails,
          (jsToLower e = a ∨ (jsStartsWith a "@" = true ∧ jsEndsWith (jsToLower e) a = true)) := by
  simp only [computeIsAuthorized]
  cases email with
  | none => simp [jsTruthy]
  | some e =>
    by_cases he : e = ""
    · subst he
      simp [jsTruthy]
    · have htr : jsTruthy (some e) = true := by simp [jsTruthy, he]
      rw [htr]
      cases hL : parseEmailList authorizedEmails with
      | nil => simp
      | cons a0 as0 =>
        have hcond : (decide (0 < (a0 :: as0).length) && true) = true := by simp
        rw [hcond, if_pos rfl]
        simp only [Option.getD_some]
        constructor
        · intro h
          obtain ⟨x, hx, hp⟩ := List.any_eq_true.mp h
          refine ⟨by simp, e, rfl, he, x, hx, ?_⟩
          cases hs : jsStartsWith x "@" with
          | true =>
            rw [if_pos hs] at hp
            exact Or.inr ⟨rfl, hp⟩
          | false =>
            rw [if_neg (by simp [hs])] at hp
            exact Or.inl (by simpa using hp)
        · rintro ⟨-, e', he', -, x, hx, hcase⟩
          have hee : e' = e := by injection he' with h; exact h.symm
          subst hee
          refine List.any_eq_true.mpr ⟨x, hx, ?_⟩
          cases hs : jsStartsWith x "@" with
          | true =>
            rw [if_pos rfl]
            rcases hcase with heq | ⟨-, hend⟩
            · rw [heq]; exact jsEndsWith_self x
            · exact hend
          | false =>
            rw [if_neg (by simp)]
            rcases hcase with heq | ⟨hs2, -⟩
            · simp [heq]
            · rw [hs] at hs2; simp at hs2

/-- C1 (amended): for a valid request with N media files where every storage
call succeeds, the non-registry storage writes are exactly N + 2, in the order
thumbnail upload, media files 0..N-1 in request order, then one
metadata-persistence call, and the response carries `mediaCount` = N; when no
non-blank server name is supplied these N + 2 writes are the only storage
calls, while with a non-blank server name (its registry read succeeding, as
every storage call succeeds) the trace continues with exactly one registry
read and one registry write, for N + 3 storage writes in total. -/
theorem c1_success_write_sequence (req : UploadReq) (ms : List UploadFile) (t : UploadFile) (st : Storage)
    (now : Nat) (nowIso : String) (dev : Bool) (url : String)
    (hval : validate req = .ok (ms, t))
    (hthumb : st.thumbResult = .ok url)
    (hmedia : ∀ j, (st.mediaResult j).isOk = true)
    (hmeta : st.metadataResult = .ok ()) :
    (handleUpload req st now nowIso dev).1 = .success (toString now) ms.length ∧
    ((handleUpload req st now nowIso dev).2.filter fun e => !e.isRegistry) =
      StorageEvent.uploadMedia (toString now) ("thumbnail-" ++ toString now) t.buffer
          (jsOr t.mimetype "image/jpeg")
        :: (ms.enum.map fun p =>
             StorageEvent.uploadMedia (toString now) (mediaFileNameAt now p.1 p.2) p.2.buffer
               (jsOr p.2.mimetype "application/octet-stream"))
        ++ [StorageEvent.uploadMetadata (toString now)
             (mkPostMetadata req (ms.enum.map fun p => mediaFileNameAt now p.1 p.2) now nowIso)
             url] ∧
    ((jsTruthy req.server && (jsTrim (req.server.getD "") != "")) = false →
      (handleUpload req st now nowIso dev).2 =
        StorageEvent.uploadMedia (toString now) ("thumbnail-" ++ toString now) t.buffer
          (jsOr t.mimetype "image/jpeg")
        :: (ms.enum.map fun p =>
             StorageEvent.uploadMedia (toString now) (mediaFileNameAt now p.1 p.2) p.2.buffer
               (jsOr p.2.mimetype "application/octet-stream"))
        ++ [StorageEvent.uploadMetadata (toString now)
             (mkPostMetadata req (ms.enum.map fun p => mediaFileNameAt now p.1 p.2) now nowIso)
             url] ∧
      ((handleUpload req st now nowIso dev).2.filter StorageEvent.isWrite).length =
        ms.length + 2) ∧
    (∀ L, (jsTruthy req.server && (jsTrim (req.server.getD "") != "")) = true →
      st.serversResult = .ok L →
      (handleUpload req st now nowIso dev).2 =
        StorageEvent.uploadMedia (toString now) ("thumbnail-" ++ toString now) t.buffer
          (jsOr t.mimetype "image/jpeg")
        :: (ms.enum.map fun p =>
             StorageEvent.uploadMedia (toString now) (mediaFileNameAt now p.1 p.2) p.2.buffer
               (jsOr p.2.mimetype "application/octet-stream"))
        ++ [StorageEvent.uploadMetadata (toString now)
             (mkPostMetadata req (ms.enum.map fun p => mediaFileNameAt now p.1 p.2) now nowIso)
             url]
          ++ [StorageEvent.getServers, StorageEvent.updateServers
               (List.insertionSort jsStrLe (jsSetDedup (L ++ [req.server.getD ""])))] ∧
      ((handleUpload req st now nowIso dev).2.filter StorageEvent.isWrite).length =
        ms.length + 3) := by
  rw [handleUpload_of_validate_ok req ms t st now nowIso dev hval,
    processUpload_ok req ms t st now nowIso dev url hthumb hmedia hmeta]
  have hpre : ∀ e ∈ (StorageEvent.uploadMedia (toString now) ("thumbnail-" ++ toString now)
        t.buffer (jsOr t.mimetype "image/jpeg")
      :: (ms.enum.map fun p =>
           StorageEvent.uploadMedia (toString now) (mediaFileNameAt now p.1 p.2) p.2.buffer
             (jsOr p.2.mimetype "application/octet-stream"))), e.isRegistry = false := by
    intro e he
    rcases List.mem_cons.mp he with rfl | he
    · rfl
    · exact media_events_not_registry (toString now) now ms.enum e he
  have hmetal : ∀ e ∈ [StorageEvent.uploadMetadata (toString now)
      (mkPostMetadata req (ms.enum.map fun p => mediaFileNameAt now p.1 p.2) now nowIso) url],
      e.isRegistry = false := by
    intro e he
    rcases List.mem_singleton.mp he with rfl
    rfl
  have hwrites : ∀ e ∈ StorageEvent.uploadMedia (toString now) ("thumbnail-" ++ toString now) t.buffer
          (jsOr t.mimetype "image/jpeg")
        :: (ms.enum.map fun p =>
             StorageEvent.uploadMedia (toString now) (mediaFileNameAt now p.1 p.2) p.2.buffer
               (jsOr p.2.mimetype "application/octet-stream"))
        ++ [StorageEvent.uploadMetadata (toString now)
             (mkPostMetadata req (ms.enum.map fun p => mediaFileNameAt now p.1 p.2) now nowIso)
             url], StorageEvent.isWrite e = true := by
    intro e he
    simp only [List.cons_append, List.mem_cons, List.mem_append, List.mem_singleton,
      List.not_mem_nil, or_false] at he
    rcases he with rfl | he | rfl
    · rfl
    · obtain ⟨p, hp, rfl⟩ := List.mem_map.mp he
      rfl
    · rfl
  have hcount : ((StorageEvent.uploadMedia (toString now) ("thumbnail-" ++ toString now) t.buffer
          (jsOr t.mimetype "image/jpeg")
        :: (ms.enum.map fun p =>
             StorageEvent.uploadMedia (toString now) (mediaFileNameAt now p.1 p.2) p.2.buffer
               (jsOr p.2.mimetype "application/octet-stream"))
        ++ [StorageEvent.uploadMetadata (toString now)
             (mkPostMetadata req (ms.enum.map fun p => mediaFileNameAt now p.1 p.2) now nowIso)
             url]).filter StorageEvent.isWrite).length = ms.length + 2 := by
    rw [List.filter_eq_self.mpr hwrites]
    simp
  refine ⟨rfl, ?_, fun hb => ?_, fun L hcond hlist => ?_⟩
  · rw [List.filter_append, List.filter_append, registryStep_filter_not_registry,
      List.append_nil, filter_not_registry_eq_self _ hpre, filter_not_registry_eq_self _ hmetal]
  · have hreg : registryStep req st = [] := by simp [registryStep, hb]
    rw [hreg]
    exact ⟨by simp, by rw [List.append_nil]; exact hcount⟩
  · have hreg : registryStep req st = [StorageEvent.getServers,
        StorageEvent.updateServers
          (List.insertionSort jsStrLe (jsSetDedup (L ++ [req.server.getD ""])))] := by
      unfold registryStep
      rw [if_pos hcond, hlist]
    rw [hreg]
    refine ⟨rfl, ?_⟩
    rw [List.filter_append, List.length_append, hcount]
    simp [StorageEvent.isWrite]

/-- C7: when all prior storage calls succeed, the response is the 200 success
body with the same postId and mediaCount regardless of the outcome of the
registry read and write (registry failures are swallowed). -/
theorem c7_registry_failure_keeps_success (req : UploadReq) (ms : List UploadFile) (t : UploadFile) (st : Storage)
    (now : Nat) (nowIso : String) (dev : Bool) (url : String)
    (hval : validate req = .ok (ms, t))
    (hthumb : st.thumbResult = .ok url)
    (hmedia : ∀ j, (st.mediaResult j).isOk = true)
    (hmeta : st.metadataResult = .ok ()) :
    (handleUpload req st now nowIso dev).1 = .success (toString now) ms.length := by
  rw [handleUpload_of_validate_ok req ms t st now nowIso dev hval,
    processUpload_ok req ms t st now nowIso dev url hthumb hmedia hmeta]

/-- C6: on a successful upload with a non-blank server name S, the list
written back to the registry is sorted, duplicate-free, and holds exactly the
read names plus S; hence reading a list without S writes the sorted list with
S added, and reading a list already containing S writes the same set of names
back. -/
theorem c6_registry_sorted_insert (req : UploadReq) (ms : List UploadFile) (t : UploadFile) (st : Storage)
    (now : Nat) (nowIso : String) (dev : Bool) (url : String) (S : String) (L : List String)
    (hval : validate req = .ok (ms, t))
    (hthumb : st.thumbResult = .ok url)
    (hmedia : ∀ j, (st.mediaResult j).isOk = true)
    (hmeta : st.metadataResult = .ok ())
    (hserver : req.server = some S)
    (hblank : jsTrim S ≠ "")
    (hlist : st.serversResult = .ok L) :
    ∃ W, ((handleUpload req st now nowIso dev).2.filter fun e => e.isRegistry) =
        [StorageEvent.getServers, StorageEvent.updateServers W] ∧
      List.Sorted jsStrLe W ∧ W.Nodup ∧ (∀ x, x ∈ W ↔ x ∈ L ∨ x = S) := by
  have hS : S ≠ "" := fun h => hblank (by rw [h]; rfl)
  have hcond : (jsTruthy req.server && (jsTrim (req.server.getD "") != "")) = true := by
    rw [hserver]
    simp only [Option.getD_some]
    simp [jsTruthy, bne_iff_ne, hS, hblank]
  have hreg : registryStep req st = [StorageEvent.getServers,
      StorageEvent.updateServers (List.insertionSort jsStrLe (jsSetDedup (L ++ [S])))] := by
    unfold registryStep
    rw [if_pos hcond, hlist, hserver]
    simp
  rw [handleUpload_of_validate_ok req ms t st now nowIso dev hval,
    processUpload_ok req ms t st now nowIso dev url hthumb hmedia hmeta]
  have hpre : ∀ e ∈ (StorageEvent.uploadMedia (toString now) ("thumbnail-" ++ toString now)
        t.buffer (jsOr t.mimetype "image/jpeg")
      :: (ms.enum.map fun p =>
           StorageEvent.uploadMedia (toString now) (mediaFileNameAt now p.1 p.2) p.2.buffer
             (jsOr p.2.mimetype "application/octet-stream"))), e.isRegistry = false := by
    intro e he
    rcases List.mem_cons.mp he with rfl | he
    · rfl
    · exact media_events_not_registry (toString now) now ms.enum e he
  have hmetal : ∀ e ∈ [StorageEvent.uploadMetadata (toString now)
      (mkPostMetadata req (ms.enum.map fun p => mediaFileNameAt now p.1 p.2) now nowIso) url],
      e.isRegistry = false := by
    intro e he
    rcases List.mem_singleton.mp he with rfl
    rfl
  refine ⟨List.insertionSort jsStrLe (jsSetDedup (L ++ [S])), ?_, ?_, ?_, ?_⟩
  · rw [hreg, List.filter_append, List.filter_append,
      filter_registry_eq_nil _ hpre, filter_registry_eq_nil _ hmetal]
    simp [StorageEvent.isRegistry]
  · exact sorted_insertionSort_jsStrLe _
  · exact (List.perm_insertionSort jsStrLe _).nodup_iff.mpr (nodup_jsSetDedup _)
  · intro x
    rw [List.mem_insertionSort, mem_jsSetDedup]
    simp

/-- C10: every list the handler writes to the registry is sorted and
duplicate-free even when the read list was unsorted or contained duplicates,
and its members are exactly the read names plus the raw (untrimmed) submitted
server name; a blank or absent server name causes no registry read or write. -/
theorem c10_registry_write_invariants (req : UploadReq) (st : Storage) (now : Nat) (nowIso : String) (dev : Bool) :
    (∀ W, StorageEvent.updateServers W ∈ (handleUpload req st now nowIso dev).2 →
       List.Sorted jsStrLe W ∧ W.Nodup ∧
       ∃ L, st.serversResult = .ok L ∧
         (∀ x, x ∈ W ↔ x ∈ L ∨ x = req.server.getD "")) ∧
    ((jsTruthy req.server && (jsTrim (req.server.getD "") != "")) = false →
       ∀ e ∈ (handleUpload req st now nowIso dev).2, e.isRegistry = false) := by
  constructor
  · intro W hW
    rcases mem_trace_registry_or_not req st now nowIso dev _ hW with h1 | h1
    · simp [StorageEvent.isRegistry] at h1
    · obtain ⟨L, hL, hWeq⟩ := mem_registryStep_update req st W h1
      subst hWeq
      refine ⟨sorted_insertionSort_jsStrLe _,
        (List.perm_insertionSort jsStrLe _).nodup_iff.mpr (nodup_jsSetDedup _), L, hL, ?_⟩
      intro x
      rw [List.mem_insertionSort, mem_jsSetDedup]
      simp
  · intro hb e he
    rcases mem_trace_registry_or_not req st now nowIso dev e he with h | h
    · exact h
    · rw [show registryStep req st = [] from by simp [registryStep, hb]] at h
      simp at h

/-- C8 (amended): the stored names of the issued file uploads are the
thumbnail name followed, in request order, by one name per media file of the
form `{now}-{i}-{originalname}` with fallback name part `media-{i+1}` (1-based
position) when no original name is given; the same generated names, in order,
are recorded in the persisted metadata. -/
theorem c8_media_file_names (req : UploadReq) (ms : List UploadFile) (t : UploadFile) (st : Storage)
    (now : Nat) (nowIso : String) (dev : Bool) (url : String)
    (hval : validate req = .ok (ms, t))
    (hthumb : st.thumbResult = .ok url)
    (hmedia : ∀ j, (st.mediaResult j).isOk = true)
    (hmeta : st.metadataResult = .ok ()) :
    ((handleUpload req st now nowIso dev).2.filterMap StorageEvent.mediaName?) =
      ("thumbnail-" ++ toString now) :: (ms.enum.map fun p => mediaFileNameAt now p.1 p.2) ∧
    ∃ u, StorageEvent.uploadMetadata (toString now)
        (mkPostMetadata req (ms.enum.map fun p => mediaFileNameAt now p.1 p.2) now nowIso) u
        ∈ (handleUpload req st now nowIso dev).2 := by
  rw [handleUpload_of_validate_ok req ms t st now nowIso dev hval,
    processUpload_ok req ms t st now nowIso dev url hthumb hmedia hmeta]
  constructor
  · rw [List.filterMap_append, List.filterMap_append, registryStep_filterMap_mediaName,
      List.append_nil]
    rw [show (StorageEvent.uploadMedia (toString now) ("thumbnail-" ++ toString now) t.buffer
          (jsOr t.mimetype "image/jpeg")
        :: (ms.enum.map fun p =>
             StorageEvent.uploadMedia (toString now) (mediaFileNameAt now p.1 p.2) p.2.buffer
               (jsOr p.2.mimetype "application/octet-stream"))).filterMap StorageEvent.mediaName?
      = ("thumbnail-" ++ toString now) :: (ms.enum.map fun p => mediaFileNameAt now p.1 p.2)
      from ?_]
    · simp [List.filterMap_cons, StorageEvent.mediaName?]
    · rw [List.filterMap_cons]
      simp only [StorageEvent.mediaName?]
      rw [filterMap_mediaName_media (toString now) now ms.enum]
  · exact ⟨url, by simp⟩


/-- C1 counterexample: for a valid request with one media file, a non-blank
server name and an all-success oracle, the number of storage writes issued is
4, not 1 + 2 — the registry write is a storage write beyond the
thumbnail-media-metadata sequence. -/
theorem c1_registry_write_count_counterexample :
    ((handleUpload reqServer stB 5 "T" false).2.filter StorageEvent.isWrite).length ≠ 1 + 2 := by
  decide

/-- C1 (amended) witness: a one-file upload with the non-blank server name `s`
against a registry reading `["b"]` issues 1 + 3 storage writes. -/
theorem c1_success_write_sequence_witness :
    ((handleUpload reqServer stB 5 "T" false).2.filter StorageEvent.isWrite).length = 1 + 3 :=
  ((c1_success_write_sequence reqServer [fileA] thumbA stB 5 "T" false "u" rfl rfl
    (fun _ => rfl) rfl).2.2.2 ["b"] rfl rfl).2

/-- C2 counterexample: with the private key missing, the verifier fails with
exactly the uniform invalid-or-expired-token error — the same value a fully
configured verifier returns for a bad token — so the failure is not
distinguishable as an initialization error by the caller. -/
theorem c2_uniform_error_counterexample :
    verifyFirebaseToken cfgNoKey (.ok ⟨"u", some "e@x.com"⟩) =
      .error "Invalid or expired token" ∧
    verifyFirebaseToken cfgReady (.error "token expired") =
      .error "Invalid or expired token" :=
  ⟨rfl, rfl⟩

/-- C2 (amended) witness at a concrete unconfigured environment. -/
theorem c2_init_failure_is_token_error_witness :
    verifyFirebaseToken cfgNoKey (.ok ⟨"u", some "user@x.com"⟩) =
      .error "Invalid or expired token" :=
  c2_init_failure_is_token_error cfgNoKey (.ok ⟨"u", some "user@x.com"⟩) rfl rfl

/-- C3 (code bug): when a storage call fails outside development mode, the 500
body places the raw exception message inside the `error` field itself
(`Upload to R2 failed: boom`), so the generic-message guarantee is broken even
though the `details` field is correctly gated to development mode. -/
theorem c3_storage_error_leaks_message :
    handleUpload reqA stThumbFail 5 "T" false =
      (UploadResponse.serverError ("Upload to R2 failed: " ++ "boom") none,
       [StorageEvent.uploadMedia "5" "thumbnail-5" 3 "image/png"]) ∧
    jsIncludes "Upload to R2 failed: boom" "boom" = true ∧
    (handleUpload reqA stThumbFail 5 "T" true).1 =
      UploadResponse.serverError ("Upload to R2 failed: " ++ "boom") (some "boom") := by
  refine ⟨by decide, by decide, by decide⟩

/-- C4 witness: the domain entry `@example.com` authorizes
`user@example.com`. -/
theorem c4_allowlist_authorization_witness :
    computeIsAuthorized "@example.com,admin@x.com" (some "user@example.com") = true :=
  (c4_allowlist_authorization "@example.com,admin@x.com" (some "user@example.com")).mpr
    ⟨by decide, "user@example.com", rfl, by decide, "@example.com", by decide,
      Or.inr ⟨by decide, by decide⟩⟩

/-- C5 witness: a request with a missing title is rejected with the
missing-required-fields error and an empty storage trace. -/
theorem c5_validation_fail_fast_witness :
    handleUpload reqMissingTitle stOk 5 "T" false =
      (UploadResponse.badRequest "Missing required fields", []) :=
  (c5_validation_fail_fast reqMissingTitle stOk 5 "T" false).1 rfl

/-- C6 witness: submitting `alpha` against a registry reading `["beta"]`. -/
theorem c6_registry_sorted_insert_witness :
    ∃ W, ((handleUpload reqAlpha stBeta 5 "T" false).2.filter fun e => e.isRegistry) =
        [StorageEvent.getServers, StorageEvent.updateServers W] ∧
      List.Sorted jsStrLe W ∧ W.Nodup ∧ (∀ x, x ∈ W ↔ x ∈ ["beta"] ∨ x = "alpha") :=
  c6_registry_sorted_insert reqAlpha [fileA] thumbA stBeta 5 "T" false "u" "alpha" ["beta"]
    rfl rfl (fun _ => rfl) rfl rfl (by decide) rfl

/-- C7 witness: the upload still answers success although both registry calls
fail. -/
theorem c7_registry_failure_keeps_success_witness :
    (handleUpload reqServer stRegFail 5 "T" false).1 = UploadResponse.success (toString 5) 1 :=
  c7_registry_failure_keeps_success reqServer [fileA] thumbA stRegFail 5 "T" false "u"
    rfl rfl (fun _ => rfl) rfl

/-- C8 counterexample: for an unnamed media file at 0-based position 0, the
stored name ends in `media-1` (1-based fallback), not in `media-0` as the
0-based reading of the claim predicts. -/
theorem c8_fallback_index_counterexample :
    (handleUpload reqNoName stOk 5 "T" false).2[1]? =
      some (StorageEvent.uploadMedia "5" "5-0-media-1" 7 "application/octet-stream") ∧
    "5-0-media-1" ≠ "5-0-media-0" := by
  decide

/-- C8 (amended) witness: the generated names for a one-file upload without an
original name. -/
theorem c8_media_file_names_witness :
    ((handleUpload reqNoName stOk 5 "T" false).2.filterMap StorageEvent.mediaName?) =
      ["thumbnail-5", "5-0-media-1"] :=
  (c8_media_file_names reqNoName [fileNoName] thumbA stOk 5 "T" false "u" rfl rfl
    (fun _ => rfl) rfl).1

/-- C9 witness: a present-but-empty title is rejected as missing. -/
theorem c9_empty_required_fields_witness :
    handleUpload reqEmptyTitle stOk 5 "T" false =
      (UploadResponse.badRequest "Missing required fields", []) :=
  c9_empty_required_fields reqEmptyTitle stOk 5 "T" false (Or.inl rfl)

/-- C10 witness: reading the unsorted duplicate list `["b", "a", "b"]` and
submitting the padded name `" b"` writes the sorted duplicate-free list
`[" b", "a", "b"]`, in which the padded name is a distinct entry. -/
theorem c10_registry_write_invariants_witness :
    List.Sorted jsStrLe [" b", "a", "b"] ∧ ([" b", "a", "b"] : List String).Nodup ∧
    ∃ L, stDup.serversResult = .ok L ∧
      (∀ x, x ∈ ([" b", "a", "b"] : List String) ↔ x ∈ L ∨ x = reqPadded.server.getD "") :=
  (c10_registry_write_invariants reqPadded stDup 5 "T" false).1 [" b", "a", "b"] (by decide)

end UploadSpec
